import Mathlib

/-!
Verification of the session-persistence core of a WhatsApp chatbot service.

This file shallowly embeds the Python sources:
  * `src/models.py`            — `OpenAIMessage`, `ChatSession`
  * `src/services/session_storage.py` — `SessionStorage` (Redis primary +
    in-memory fallback), serialization, save/get/delete/cleanup
  * `src/services/chat_service.py`    — `ChatService` session lifecycle
  * `src/services/openai_service.py`  — `generate_response`, system message
  * `src/config.py`            — the configured `session_ttl`

Machine conventions: Python `datetime` values are modelled by the `DT`
record of calendar fields; `datetime.isoformat` / `datetime.fromisoformat`
are modelled as rendering/parsing of the zero-padded ISO text the code
round-trips through JSON (the parser covers exactly the shapes `isoformat`
emits, which is all the code ever writes); `datetime` subtraction is exact
microsecond subtraction on the proleptic-Gregorian timeline, as in CPython.
The external Redis client is modelled by an explicit keyspace plus a
per-call outcome (success / raised error), and the OpenAI client by a
per-call outcome.  Fallible Python code returns `Option`.
-/

/-- Calendar timestamp, the shallow embedding of Python `datetime.datetime`
(naive, microsecond precision). -/
structure DT where
  year : Nat
  month : Nat
  day : Nat
  hour : Nat
  minute : Nat
  second : Nat
  microsecond : Nat
deriving DecidableEq, Repr

/-- Field bounds guaranteed for every real `datetime` value (what the
zero-padded widths of `isoformat` require for faithful round-tripping). -/
def DT.Valid (d : DT) : Prop :=
  d.year < 10000 ∧ d.month < 100 ∧ d.day < 100 ∧ d.hour < 100 ∧
    d.minute < 100 ∧ d.second < 100 ∧ d.microsecond < 1000000

instance (d : DT) : Decidable d.Valid := by
  unfold DT.Valid; infer_instance

/-- Cumulative day counts before each month (non-leap year), as used by
CPython `date.toordinal`. -/
def daysBeforeMonth : Nat → Nat
  | 1 => 0 | 2 => 31 | 3 => 59 | 4 => 90 | 5 => 120 | 6 => 151 | 7 => 181
  | 8 => 212 | 9 => 243 | 10 => 273 | 11 => 304 | 12 => 334 | _ => 0

def isLeapYear (y : Nat) : Bool :=
  y % 4 == 0 && (y % 100 != 0 || y % 400 == 0)

/-- Proleptic-Gregorian ordinal of a date, following CPython
`datetime.date.toordinal`. -/
def DT.toordinal (t : DT) : Nat :=
  let p := t.year - 1
  365 * p + p / 4 - p / 100 + p / 400 + daysBeforeMonth t.month +
    (if 2 < t.month && isLeapYear t.year then 1 else 0) + t.day

/-- Microseconds on the absolute timeline; `datetime` subtraction is exact,
so differences of `toMicro` model `datetime - datetime`. -/
def DT.toMicro (t : DT) : Nat :=
  (((t.toordinal * 24 + t.hour) * 60 + t.minute) * 60 + t.second) * 1000000
    + t.microsecond

/-- `a - b` for two datetimes, in microseconds (models a Python
`timedelta`). -/
def dtSub (a b : DT) : Int :=
  (a.toMicro : Int) - (b.toMicro : Int)

/-! ### ISO-format rendering and parsing (`isoformat` / `fromisoformat`) -/

def digitChar (n : Nat) : Char := Char.ofNat (48 + n)

/-- Zero-padded big-endian decimal rendering of `n` to exactly `w` digits. -/
def padNum : Nat → Nat → List Char
  | 0, _ => []
  | w + 1, n => digitChar (n / 10 ^ w) :: padNum w (n % 10 ^ w)

/-- Read exactly `w` decimal digits, accumulating onto `acc`; models the
fixed-width field reads of `datetime.fromisoformat`. -/
def readNum : Nat → Nat → List Char → Option (Nat × List Char)
  | 0, acc, cs => some (acc, cs)
  | _ + 1, _, [] => none
  | w + 1, acc, c :: cs =>
      if c.isDigit then readNum w (acc * 10 + (c.toNat - 48)) cs else none

def expectChar (c : Char) : List Char → Option (List Char)
  | [] => none
  | x :: xs => if x = c then some xs else none

/-- The character list `datetime.isoformat()` produces:
`YYYY-MM-DDTHH:MM:SS` with `.ffffff` appended iff microseconds ≠ 0. -/
def renderISO (d : DT) : List Char :=
  padNum 4 d.year ++ '-' ::
  (padNum 2 d.month ++ '-' ::
  (padNum 2 d.day ++ 'T' ::
  (padNum 2 d.hour ++ ':' ::
  (padNum 2 d.minute ++ ':' ::
  (padNum 2 d.second ++
  (if d.microsecond = 0 then [] else '.' :: padNum 6 d.microsecond))))))

/-- Read a `w`-digit field followed by the separator `sep`. -/
def parseField (w : Nat) (sep : Char) (cs : List Char) : Option (Nat × List Char) := do
  let (n, cs) ← readNum w 0 cs
  let cs ← expectChar sep cs
  some (n, cs)

/-- Parser for the shapes `renderISO` emits, modelling
`datetime.fromisoformat` on the strings this program stores. -/
def parseISO (cs : List Char) : Option DT := do
  let (y, cs) ← parseField 4 '-' cs
  let (mo, cs) ← parseField 2 '-' cs
  let (da, cs) ← parseField 2 'T' cs
  let (h, cs) ← parseField 2 ':' cs
  let (mi, cs) ← parseField 2 ':' cs
  let (s, cs) ← readNum 2 0 cs
  match cs with
  | [] => some ⟨y, mo, da, h, mi, s, 0⟩
  | '.' :: cs =>
      match readNum 6 0 cs with
      | some (us, []) => some ⟨y, mo, da, h, mi, s, us⟩
      | _ => none
  | _ => none

/-- `datetime.isoformat()` as used by `_serialize_session`. -/
def isoformat (d : DT) : String := String.mk (renderISO d)

/-- `datetime.fromisoformat()` as used by `_deserialize_session` and the
cleanup sweep; `none` models the `ValueError` raised on malformed input. -/
def fromisoformat (s : String) : Option DT := parseISO s.data

/-! ### Data model (`src/models.py`) -/

/-- `OpenAIMessage`: a role plus text content. -/
structure Msg where
  role : String
  content : String
deriving DecidableEq, Repr

/-- A `last_activity` value held in the loosely-typed session dict: the
cleanup sweep in `session_storage.py` accepts either a `datetime` or an
ISO string (`isinstance(last_activity, str)`). -/
inductive TimeVal where
  | dt (t : DT)
  | str (s : String)
deriving DecidableEq, Repr

/-- The session dict stored in `fallback_storage` / passed to
`save_session` (`user_phone`, `messages`, `created_at`, `last_activity`);
the timestamp fields are `Option` because the code guards each with
`if 'field' in session_data`. -/
structure SessionData where
  user_phone : String
  messages : List Msg
  created_at : Option DT
  last_activity : Option TimeVal
deriving DecidableEq, Repr

/-- The JSON document `json.dumps` produces in `_serialize_session`:
identical to the dict except that the timestamp fields are ISO strings.
(`json.dumps`/`json.loads` round-trip the structure itself; the code's own
logic is the datetime-to-ISO conversion, which is modelled explicitly.) -/
structure StoredSession where
  user_phone : String
  messages : List Msg
  created_at : Option String
  last_activity : Option String
deriving DecidableEq, Repr

/-- `ChatSession` from `models.py` (the in-memory pydantic model). -/
structure ChatSession where
  user_phone : String
  messages : List Msg
  created_at : DT
  last_activity : DT
deriving DecidableEq, Repr

/-- `ChatSession.add_message`: append a message and bump `last_activity`
(to `datetime.now()`, passed in as `now`). -/
def ChatSession.add_message (s : ChatSession) (role content : String) (now : DT) :
    ChatSession :=
  { s with messages := s.messages ++ [⟨role, content⟩], last_activity := now }

/-- `ChatSession.get_conversation_history`: the most recent
`max_messages` messages (`self.messages[-max_messages:]`) when the list is
longer than the limit, otherwise all messages. -/
def ChatSession.get_conversation_history (s : ChatSession) (max_messages : Nat) :
    List Msg :=
  if s.messages.length > max_messages then
    s.messages.drop (s.messages.length - max_messages)
  else
    s.messages

/-! ### Serialization (`SessionStorage._serialize_session` /
`_deserialize_session`) -/

/-- `_serialize_session`: copy the dict and replace each present timestamp
field by its `isoformat()` string, then `json.dumps`.  Returns `none` when
serialization raises (a non-datetime `last_activity` has no `isoformat`). -/
def serialize_session (d : SessionData) : Option StoredSession :=
  match d.last_activity with
  | some (.str _) => none
  | some (.dt t) =>
      some ⟨d.user_phone, d.messages, d.created_at.map isoformat, some (isoformat t)⟩
  | none =>
      some ⟨d.user_phone, d.messages, d.created_at.map isoformat, none⟩

/-- Convert one optional ISO text field back, `none` result modelling the
`ValueError` `fromisoformat` raises on malformed text. -/
def parseTimeField (o : Option String) : Option (Option DT) :=
  match o with
  | none => some none
  | some s => (fromisoformat s).map some

/-- `_deserialize_session`: `json.loads` then `fromisoformat` on each
present timestamp field; `none` models a raised exception. -/
def deserialize_session (j : StoredSession) : Option SessionData := do
  let ca ← parseTimeField j.created_at
  let la ← parseTimeField j.last_activity
  pure ⟨j.user_phone, j.messages, ca, la.map TimeVal.dt⟩

/-! ### Storage state and association-list primitives

`fallback_storage` and the Redis keyspace are Python dicts / key-value
stores; both are modelled as association lists with unique keys. -/

def lookupA {α : Type} : List (String × α) → String → Option α
  | [], _ => none
  | (k, v) :: rest, u => if k = u then some v else lookupA rest u

def eraseA {α : Type} : List (String × α) → String → List (String × α)
  | [], _ => []
  | (k, v) :: rest, u => if k = u then eraseA rest u else (k, v) :: eraseA rest u

/-- `d[k] = v` on a dict: replace any existing binding. -/
def insertA {α : Type} (l : List (String × α)) (u : String) (v : α) :
    List (String × α) :=
  (u, v) :: eraseA l u

/-- Whether one call into the Redis client succeeds or raises
(connection/timeout/protocol error). -/
inductive CallOutcome where
  | ok
  | exn
deriving DecidableEq, Repr

/-- Outcome of `redis_client.setex`: a truthy reply, a falsy reply without
an exception, or a raised error. -/
inductive SetexOutcome where
  | okTrue
  | okFalse
  | exn
deriving DecidableEq, Repr

/-- The state of a `SessionStorage` object: `use_redis` (connection was
established), the external Redis keyspace, and `fallback_storage`. -/
structure StorageState where
  use_redis : Bool
  redis : List (String × StoredSession)
  fallback : List (String × SessionData)
deriving DecidableEq, Repr

/-- `_get_redis_key`. -/
def redisKey (u : String) : String := "whatsapp_session:" ++ u

/-- `SessionStorage.get_session`: try Redis first when connected, fall
back to `fallback_storage` on a miss or on any raised error; without
Redis, read the fallback store directly.  Never raises. -/
def get_session (st : StorageState) (o : CallOutcome) (u : String) :
    Option SessionData :=
  if st.use_redis then
    match o with
    | .exn => lookupA st.fallback u
    | .ok =>
        match lookupA st.redis (redisKey u) with
        | some j =>
            match deserialize_session j with
            | some d => some d
            | none => lookupA st.fallback u
        | none => lookupA st.fallback u
  else
    lookupA st.fallback u

/-- `SessionStorage.save_session`: always writes the fallback copy first;
then attempts the Redis `setex` (with the configured TTL, handled by the
external store itself).  Reports `false` only when `setex` returns a falsy
reply without raising; a raised error (including serialization failure) is
caught and still reported as success. -/
def save_session (st : StorageState) (o : SetexOutcome) (u : String)
    (d : SessionData) (ttl : Nat) : StorageState × Bool :=
  let _ := ttl
  let st1 := { st with fallback := insertA st.fallback u d }
  if st1.use_redis then
    match serialize_session d with
    | none => (st1, true)
    | some j =>
        match o with
        | .exn => (st1, true)
        | .okFalse => (st1, false)
        | .okTrue => ({ st1 with redis := insertA st1.redis (redisKey u) j }, true)
  else
    (st1, true)

/-- `SessionStorage.delete_session`: remove from the fallback store when
present, then attempt the Redis delete; returns `true` on every
non-raising path regardless of whether anything existed, `false` when the
Redis delete raises. -/
def delete_session (st : StorageState) (o : CallOutcome) (u : String) :
    StorageState × Bool :=
  let st1 := { st with fallback := eraseA st.fallback u }
  if st1.use_redis then
    match o with
    | .exn => (st1, false)
    | .ok => ({ st1 with redis := eraseA st1.redis (redisKey u) }, true)
  else
    (st1, true)

/-! ### Expiry sweep (`SessionStorage.cleanup_expired_sessions`) -/

/-- `last_activity` coerced to a datetime: already one, or parsed from an
ISO string (`datetime.fromisoformat(last_activity)`). -/
def coerceLA : TimeVal → Option DT
  | .dt t => some t
  | .str s => fromisoformat s

/-- Whether an entry's `last_activity`, if present, coerces to a datetime
without raising (i.e. the sweep can process the entry). -/
def coercibleLA (d : SessionData) : Bool :=
  match d.last_activity with
  | none => true
  | some tv => (coerceLA tv).isSome

/-- Whether the sweep classifies an entry as expired:
`current_time - last_activity > timedelta(seconds=settings.session_ttl)`,
skipping entries with no `last_activity` field. -/
def isStale (now : DT) (ttl : Nat) (d : SessionData) : Bool :=
  match d.last_activity with
  | none => false
  | some tv =>
      match coerceLA tv with
      | none => false
      | some la => decide (dtSub now la > (ttl : Int) * 1000000)

/-- The scan loop collecting expired keys; `none` models the exception a
malformed `last_activity` string raises (which the outer handler turns
into "0 cleaned up, nothing removed"). -/
def scanExpired (now : DT) (ttl : Nat) :
    List (String × SessionData) → Option (List String)
  | [] => some []
  | (u, d) :: rest =>
      match d.last_activity with
      | none => scanExpired now ttl rest
      | some tv =>
          match coerceLA tv with
          | none => none
          | some la =>
              if dtSub now la > (ttl : Int) * 1000000 then
                (scanExpired now ttl rest).map (fun ks => u :: ks)
              else
                scanExpired now ttl rest

/-- `cleanup_expired_sessions`: sweep the fallback store (both source
branches — Redis connected or not — run the identical fallback sweep,
since Redis expires its own keys), delete the collected keys, and return
how many were deleted; on a raised error return `0` with nothing removed. -/
def cleanup_expired_sessions (st : StorageState) (now : DT) (ttl : Nat) :
    StorageState × Nat :=
  match scanExpired now ttl st.fallback with
  | some ks =>
      ({ st with fallback := ks.foldl (fun acc k => eraseA acc k) st.fallback },
        ks.length)
  | none => (st, 0)

/-! ### OpenAI adapter (`src/services/openai_service.py`) -/

/-- One outcome of the chat-completions call: a reply with its list of
choice contents, or one of the caught failure classes. -/
inductive APIOutcome where
  | ok (choices : List (Option String))
  | authError
  | rateLimitError
  | apiError
  | exn
deriving DecidableEq, Repr

/-- `OpenAIService.generate_response`: returns the first choice's content;
`None` on empty choices, on every caught API failure, and on a `None`
content (whose `len()` raises into the generic handler).  The message list
is sent to the external API and does not affect the modelled outcome. -/
def generate_response (o : APIOutcome) (msgs : List Msg) : Option String :=
  let _ := msgs
  match o with
  | .ok [] => none
  | .ok (none :: _) => none
  | .ok (some c :: _) => some c
  | .authError => none
  | .rateLimitError => none
  | .apiError => none
  | .exn => none

/-- The fixed system persona text of `create_system_message`. -/
def system_prompt : String :=
  "You are a helpful and friendly WhatsApp chatbot assistant.\n        You should be conversational, concise, and helpful.\n        Keep responses under 500 characters when possible, as this is for WhatsApp messaging.\n        Be polite, professional, and engaging in your responses."

/-- `OpenAIService.create_system_message`. -/
def create_system_message : Msg := ⟨"system", system_prompt⟩

/-! ### Chat service (`src/services/chat_service.py`) -/

/-- Rebuild a `ChatSession` from a stored dict, as `get_or_create_session`
does; `none` models the exception on a missing timestamp field, and a
string `last_activity` is coerced by pydantic's datetime validation. -/
def reconstruct_session (d : SessionData) : Option ChatSession :=
  match d.created_at, d.last_activity with
  | some c, some (.dt l) => some ⟨d.user_phone, d.messages, c, l⟩
  | some c, some (.str s) =>
      (fromisoformat s).map (fun l => ⟨d.user_phone, d.messages, c, l⟩)
  | _, _ => none

/-- `_save_session_to_storage`'s dict: all four fields, datetimes intact. -/
def session_to_data (s : ChatSession) : SessionData :=
  ⟨s.user_phone, s.messages, some s.created_at, some (TimeVal.dt s.last_activity)⟩

/-- Per-request outcomes of the Redis calls a chat-service request can
make: the read, the save inside `get_or_create_session`, and the save
after an assistant reply. -/
structure Oracle where
  oget : CallOutcome
  osave : SetexOutcome
  osave2 : SetexOutcome
deriving DecidableEq, Repr

/-- `ChatService.get_or_create_session`: sweep expired fallback entries,
read the session, and either rebuild it (a raised rebuild error, `none`,
propagates to `process_message`'s handler) or create a fresh session
seeded with exactly the system message and persist it (ignoring the save
result, as `_save_session_to_storage` does). -/
def get_or_create_session (st : StorageState) (orc : Oracle) (u : String)
    (now : DT) (ttl : Nat) : Option (StorageState × ChatSession) :=
  let st1 := (cleanup_expired_sessions st now ttl).1
  match get_session st1 orc.oget u with
  | some d => (reconstruct_session d).map (fun s => (st1, s))
  | none =>
      let s0 : ChatSession := ⟨u, [], now, now⟩
      let s1 := s0.add_message "system" system_prompt now
      let st2 := (save_session st1 orc.osave u (session_to_data s1) ttl).1
      some (st2, s1)

/-- The fixed fallback apology returned when the model adapter fails. -/
def fallback_response : String :=
  "I\x27m sorry, I\x27m having trouble processing your message right now. Please try again in a moment."

/-- The generic apology returned by `process_message`'s outer handler. -/
def generic_error_response : String :=
  "I\x27m sorry, something went wrong. Please try again later."

/-- The context window `process_message` presents to the model adapter:
`get_conversation_history()` (default window 10) of the session after the
user message is appended. -/
def presented_history (s : ChatSession) (m : String) (now : DT) : List Msg :=
  ((s.add_message "user" m now).get_conversation_history 10)

/-- `ChatService.process_message`: load/create the session, append the
user message in memory, call the adapter on the presented window; on a
truthy reply append the assistant message and persist, otherwise return
the fixed fallback apology without persisting; a raised error during
load/rebuild yields the generic apology. -/
def process_message (st : StorageState) (orc : Oracle) (api : APIOutcome)
    (u m : String) (now : DT) (ttl : Nat) : StorageState × String :=
  match get_or_create_session st orc u now ttl with
  | none => ((cleanup_expired_sessions st now ttl).1, generic_error_response)
  | some (st1, sess) =>
      let sess1 := sess.add_message "user" m now
      match generate_response api (presented_history sess m now) with
      | some r =>
          if r = "" then
            (st1, fallback_response)
          else
            let sess2 := sess1.add_message "assistant" r now
            let st2 :=
              (save_session st1 orc.osave2 sess2.user_phone (session_to_data sess2) ttl).1
            (st2, r)
      | none => (st1, fallback_response)

/-- `get_session_info` result: note `is_active` compares against the
literal `timedelta(seconds=86400)` in the source, not the configured
`settings.session_ttl`. -/
structure SessionInfo where
  user_phone : String
  message_count : Nat
  created_at : String
  last_activity : String
  is_active : Bool
deriving DecidableEq, Repr

/-- `ChatService.get_session_info`: a read-only projection; any raised
field access (missing or non-datetime timestamp) is caught and yields
`None`. -/
def get_session_info (st : StorageState) (o : CallOutcome) (u : String)
    (now : DT) : Option SessionInfo :=
  match get_session st o u with
  | none => none
  | some d =>
      match d.created_at, d.last_activity with
      | some c, some (.dt l) =>
          some ⟨d.user_phone, d.messages.length, isoformat c, isoformat l,
            decide (dtSub now l < (86400 : Int) * 1000000)⟩
      | _, _ => none

/-! ### Concrete fixtures used by witnesses and counterexamples -/

/-- Storage after a failed Redis connect (`use_redis = False`). -/
def emptyState : StorageState := ⟨false, [], []⟩

/-- Storage with a live Redis connection and both tiers empty. -/
def rState : StorageState := ⟨true, [], []⟩

/-- A sample timestamp, 2024-01-02 03:04:05. -/
def t0 : DT := ⟨2024, 1, 2, 3, 4, 5, 0⟩

/-- Ten seconds after `t0`. -/
def t0plus10s : DT := ⟨2024, 1, 2, 3, 4, 15, 0⟩

/-- Two days after `t0`. -/
def t0plus2d : DT := ⟨2024, 1, 4, 3, 4, 5, 0⟩

/-- A well-formed stored session dict for user `u1`, written at `t0`. -/
def sampleData : SessionData :=
  ⟨"u1", [⟨"system", "hey"⟩], some t0, some (TimeVal.dt t0)⟩

/-- All-success per-request Redis outcomes. -/
def orc0 : Oracle := ⟨CallOutcome.ok, SetexOutcome.okTrue, SetexOutcome.okTrue⟩

/-- Fallback-only storage holding `sampleData` under `u1`. -/
def infoState : StorageState := ⟨false, [], [("u1", sampleData)]⟩

/-- Fifteen prior messages (as in the spec's window scenario). -/
def msgs15 : List Msg := (List.range 15).map (fun i => ⟨"user", toString i⟩)

/-- A session holding 15 prior messages. -/
def sess15 : ChatSession := ⟨"u1", msgs15, t0, t0⟩

/-- The session a fresh `get_or_create_session` call at `now` builds for
user `u`: exactly the one system message. -/
def newUserSession (u : String) (now : DT) : ChatSession :=
  ⟨u, [create_system_message], now, now⟩

/-- The storage state after a fresh user `"B"` is created at `t0` with no
Redis connection: the fallback tier holds exactly the seeded session. -/
def stB : StorageState :=
  ⟨false, [], [("B", session_to_data (newUserSession "B" t0))]⟩

/-- A stale fallback entry (last activity `t0`, read two days later). -/
def staleData : SessionData := ⟨"u2", [], some t0, some (TimeVal.dt t0)⟩

/-- A fresh fallback entry (last activity two days after `t0`). -/
def freshData : SessionData := ⟨"u3", [], some t0, some (TimeVal.dt t0plus2d)⟩

/-- A fallback entry with no `last_activity` field at all. -/
def noLAData : SessionData := ⟨"u4", [], some t0, none⟩

/-- A mixed fallback tier: one stale entry, one fresh entry, one entry
without `last_activity`. -/
def mixedState : StorageState :=
  ⟨false, [], [("u2", staleData), ("u3", freshData), ("u4", noLAData)]⟩

/-! ## Theorems -/

/-! ### ISO round-trip lemmas -/

theorem digitChar_isDigit {k : Nat} (h : k < 10) :
    (digitChar k).isDigit = true ∧ (digitChar k).toNat = 48 + k := by
  interval_cases k <;> exact ⟨by decide, by decide⟩

theorem readNum_padNum (w : Nat) : ∀ (acc n : Nat) (rest : List Char),
    n < 10 ^ w →
    readNum w acc (padNum w n ++ rest) = some (acc * 10 ^ w + n, rest) := by
  induction w with
  | zero =>
      intro acc n rest h
      interval_cases n
      simp [padNum, readNum]
  | succ w ih =>
      intro acc n rest h
      have hq : n / 10 ^ w < 10 := by
        apply Nat.div_lt_of_lt_mul
        calc n < 10 ^ (w + 1) := h
          _ = 10 ^ w * 10 := by rw [pow_succ]
      obtain ⟨hd1, hd2⟩ := digitChar_isDigit hq
      have hm : n % 10 ^ w < 10 ^ w := Nat.mod_lt _ (Nat.pos_pow_of_pos w (by norm_num))
      have : readNum (w + 1) acc (padNum (w + 1) n ++ rest) =
          readNum w (acc * 10 + n / 10 ^ w) (padNum w (n % 10 ^ w) ++ rest) := by
        simp [padNum, readNum, hd1, hd2]
      rw [this, ih _ _ _ hm]
      have hdm := Nat.div_add_mod n (10 ^ w)
      congr 2
      calc (acc * 10 + n / 10 ^ w) * 10 ^ w + n % 10 ^ w
          = acc * (10 ^ w * 10) + (10 ^ w * (n / 10 ^ w) + n % 10 ^ w) := by ring
        _ = acc * 10 ^ (w + 1) + n := by rw [hdm, pow_succ]

theorem readNum_padNum' {w n : Nat} (rest : List Char) (h : n < 10 ^ w) :
    readNum w 0 (padNum w n ++ rest) = some (n, rest) := by
  simpa using readNum_padNum w 0 n rest h

theorem readNum_padNum_nil {w n : Nat} (h : n < 10 ^ w) :
    readNum w 0 (padNum w n) = some (n, []) := by
  simpa using readNum_padNum' (w := w) [] h

theorem parseField_padNum {w n : Nat} {sep : Char} (rest : List Char)
    (h : n < 10 ^ w) :
    parseField w sep (padNum w n ++ sep :: rest) = some (n, rest) := by
  simp [parseField, readNum_padNum' _ h, expectChar]

theorem parseISO_renderISO (d : DT) (h : d.Valid) :
    parseISO (renderISO d) = some d := by
  obtain ⟨h1, h2, h3, h4, h5, h6, h7⟩ := h
  have hy : d.year < 10 ^ 4 := by norm_num; exact h1
  have hmo : d.month < 10 ^ 2 := by norm_num; exact h2
  have hda : d.day < 10 ^ 2 := by norm_num; exact h3
  have hh : d.hour < 10 ^ 2 := by norm_num; exact h4
  have hmi : d.minute < 10 ^ 2 := by norm_num; exact h5
  have hs : d.second < 10 ^ 2 := by norm_num; exact h6
  have hus : d.microsecond < 10 ^ 6 := by norm_num; exact h7
  by_cases h0 : d.microsecond = 0
  · have : renderISO d =
        padNum 4 d.year ++ '-' ::
        (padNum 2 d.month ++ '-' ::
        (padNum 2 d.day ++ 'T' ::
        (padNum 2 d.hour ++ ':' ::
        (padNum 2 d.minute ++ ':' ::
        (padNum 2 d.second ++ []))))) := by
      simp [renderISO, h0]
    rw [this]
    simp only [parseISO, parseField_padNum _ hy, Option.bind_eq_bind,
      Option.some_bind, parseField_padNum _ hmo, parseField_padNum _ hda,
      parseField_padNum _ hh, parseField_padNum _ hmi, List.append_nil,
      readNum_padNum_nil hs]
    rw [← h0]
  · have : renderISO d =
        padNum 4 d.year ++ '-' ::
        (padNum 2 d.month ++ '-' ::
        (padNum 2 d.day ++ 'T' ::
        (padNum 2 d.hour ++ ':' ::
        (padNum 2 d.minute ++ ':' ::
        (padNum 2 d.second ++ '.' :: padNum 6 d.microsecond))))) := by
      simp [renderISO, h0]
    rw [this]
    simp only [parseISO, parseField_padNum _ hy, Option.bind_eq_bind,
      Option.some_bind, parseField_padNum _ hmo, parseField_padNum _ hda,
      parseField_padNum _ hh, parseField_padNum _ hmi,
      readNum_padNum' _ hs, readNum_padNum_nil hus]

theorem fromisoformat_isoformat (d : DT) (h : d.Valid) :
    fromisoformat (isoformat d) = some d := by
  unfold fromisoformat isoformat
  exact parseISO_renderISO d h


/-- Round-trip of a session dict whose timestamps are in-range datetimes:
serialization succeeds and deserialization restores the dict exactly. -/
theorem serialize_deserialize_session (d : SessionData) (l : DT)
    (hca : ∀ c, d.created_at = some c → c.Valid)
    (hla : d.last_activity = some (TimeVal.dt l)) (hl : l.Valid) :
    ∃ j, serialize_session d = some j ∧ deserialize_session j = some d := by
  refine ⟨⟨d.user_phone, d.messages, d.created_at.map isoformat, some (isoformat l)⟩,
    ?_, ?_⟩
  · simp [serialize_session, hla]
  · have hcafield : parseTimeField (d.created_at.map isoformat) = some d.created_at := by
      cases hc : d.created_at with
      | none => simp [parseTimeField]
      | some c =>
          simp [parseTimeField, fromisoformat_isoformat c (hca c hc)]
    have hlafield : parseTimeField (some (isoformat l)) = some (some l) := by
      simp [parseTimeField, fromisoformat_isoformat l hl]
    simp only [deserialize_session, hcafield, hlafield, Option.bind_eq_bind,
      Option.some_bind, Option.map_some']
    rw [← hla]
    rfl

/-! ### Association-list and sweep lemmas -/

theorem lookupA_insertA_self {α : Type} (l : List (String × α)) (u : String) (v : α) :
    lookupA (insertA l u v) u = some v := by
  simp [insertA, lookupA]

theorem lookupA_eraseA_self {α : Type} (l : List (String × α)) (u : String) :
    lookupA (eraseA l u) u = none := by
  induction l with
  | nil => rfl
  | cons p rest ih =>
      obtain ⟨k, v⟩ := p
      by_cases hk : k = u
      · simpa [eraseA, hk] using ih
      · simpa [eraseA, lookupA, hk] using ih

theorem lookupA_eraseA_ne {α : Type} (l : List (String × α)) {u k : String}
    (h : u ≠ k) : lookupA (eraseA l k) u = lookupA l u := by
  induction l with
  | nil => rfl
  | cons p rest ih =>
      obtain ⟨k', v⟩ := p
      by_cases hk : k' = k
      · subst hk
        simpa [eraseA, lookupA, Ne.symm h] using ih
      · by_cases hu : k' = u
        · subst hu
          simp [eraseA, lookupA, hk]
        · simpa [eraseA, lookupA, hk, hu] using ih

theorem not_mem_eraseA {α : Type} (l : List (String × α)) (u : String) (v : α) :
    (u, v) ∉ eraseA l u := by
  induction l with
  | nil => simp [eraseA]
  | cons p rest ih =>
      obtain ⟨k, w⟩ := p
      by_cases hk : k = u
      · simpa [eraseA, hk] using ih
      · simp only [eraseA, if_neg hk, List.mem_cons]
        rintro (heq | hmem)
        · exact hk (congrArg Prod.fst heq).symm
        · exact ih hmem

theorem mem_of_lookupA {α : Type} {l : List (String × α)} {u : String} {v : α}
    (h : lookupA l u = some v) : (u, v) ∈ l := by
  induction l with
  | nil => simp [lookupA] at h
  | cons p rest ih =>
      obtain ⟨k, w⟩ := p
      by_cases hk : k = u
      · subst hk
        simp only [lookupA, if_true] at h
        injection h with h
        subst h
        exact List.mem_cons_self _ _
      · simp only [lookupA, if_neg hk] at h
        exact List.mem_cons_of_mem _ (ih h)

/-- Under unique keys, a lookup hit is the only binding of that key. -/
theorem eq_of_mem_of_lookupA {α : Type} {l : List (String × α)} {u : String}
    {v v' : α} (hnd : (l.map Prod.fst).Nodup) (h : lookupA l u = some v)
    (hm : (u, v') ∈ l) : v' = v := by
  induction l with
  | nil => simp at hm
  | cons p rest ih =>
      obtain ⟨k, w⟩ := p
      simp only [List.map_cons, List.nodup_cons] at hnd
      rcases List.mem_cons.mp hm with heq | hmem
      · cases heq
        simp only [lookupA, if_true] at h
        exact Option.some.inj h
      · by_cases hk : k = u
        · subst hk
          exact absurd (List.mem_map_of_mem Prod.fst hmem) hnd.1
        · simp only [lookupA, if_neg hk] at h
          exact ih hnd.2 h hmem

theorem lookupA_foldl_eraseA {α : Type} (ks : List String)
    (l : List (String × α)) (u : String) :
    lookupA (ks.foldl (fun acc k => eraseA acc k) l) u =
      if u ∈ ks then none else lookupA l u := by
  induction ks generalizing l with
  | nil => simp
  | cons k ks ih =>
      simp only [List.foldl_cons, ih, List.mem_cons]
      by_cases hu : u = k
      · subst hu
        simp [lookupA_eraseA_self]
      · by_cases hks : u ∈ ks
        · simp [hks, hu]
        · simp [hks, hu, lookupA_eraseA_ne _ hu]

/-- Every key the sweep collects comes from a stale binding. -/
theorem scanExpired_mem {now : DT} {ttl : Nat}
    {l : List (String × SessionData)} {ks : List String} {u : String}
    (h : scanExpired now ttl l = some ks) (hu : u ∈ ks) :
    ∃ d, (u, d) ∈ l ∧ isStale now ttl d = true := by
  induction l generalizing ks with
  | nil =>
      simp only [scanExpired, Option.some.injEq] at h
      subst h
      simp at hu
  | cons p rest ih =>
      obtain ⟨k, d⟩ := p
      simp only [scanExpired] at h
      cases hla : d.last_activity with
      | none =>
          simp only [hla] at h
          obtain ⟨d', hd'⟩ := ih h hu
          exact ⟨d', List.mem_cons_of_mem _ hd'.1, hd'.2⟩
      | some tv =>
          simp only [hla] at h
          cases hco : coerceLA tv with
          | none => simp [hco] at h
          | some la =>
              simp only [hco] at h
              by_cases hst : dtSub now la > (ttl : Int) * 1000000
              · rw [if_pos hst] at h
                obtain ⟨ks', hks', rfl⟩ := Option.map_eq_some'.mp h
                rcases List.mem_cons.mp hu with rfl | hmem
                · exact ⟨d, List.mem_cons_self _ _,
                    by simp [isStale, hla, hco, hst]⟩
                · obtain ⟨d', hd'⟩ := ih hks' hmem
                  exact ⟨d', List.mem_cons_of_mem _ hd'.1, hd'.2⟩
              · rw [if_neg hst] at h
                obtain ⟨d', hd'⟩ := ih h hu
                exact ⟨d', List.mem_cons_of_mem _ hd'.1, hd'.2⟩

/-- When every `last_activity` field coerces, the sweep collects exactly
the keys of the stale bindings. -/
theorem scanExpired_eq_filter {now : DT} {ttl : Nat}
    (l : List (String × SessionData))
    (hc : ∀ p ∈ l, coercibleLA p.2 = true) :
    scanExpired now ttl l =
      some ((l.filter (fun p => isStale now ttl p.2)).map Prod.fst) := by
  induction l with
  | nil => simp [scanExpired]
  | cons p rest ih =>
      obtain ⟨k, d⟩ := p
      have hrest : ∀ p ∈ rest, coercibleLA p.2 = true :=
        fun p hp => hc p (List.mem_cons_of_mem _ hp)
      simp only [scanExpired]
      cases hla : d.last_activity with
      | none =>
          simp only [hla, ih hrest]
          simp [List.filter_cons, isStale, hla]
      | some tv =>
          have hsome := hc (k, d) (List.mem_cons_self _ _)
          simp only [coercibleLA, hla] at hsome
          obtain ⟨la, hco⟩ := Option.isSome_iff_exists.mp hsome
          simp only [hla, hco]
          by_cases hst : dtSub now la > (ttl : Int) * 1000000
          · rw [if_pos hst, ih hrest]
            simp [List.filter_cons, isStale, hla, hco, hst]
          · rw [if_neg hst, ih hrest]
            simp [List.filter_cons, isStale, hla, hco, hst]

/-- The sweep never touches `use_redis` or the Redis keyspace. -/
theorem cleanup_preserves_redis (st : StorageState) (now : DT) (ttl : Nat) :
    (cleanup_expired_sessions st now ttl).1.use_redis = st.use_redis ∧
      (cleanup_expired_sessions st now ttl).1.redis = st.redis := by
  unfold cleanup_expired_sessions
  cases scanExpired now ttl st.fallback <;> exact ⟨rfl, rfl⟩

/-- A key absent from the fallback store stays absent through the sweep. -/
theorem lookupA_cleanup_none {st : StorageState} {now : DT} {ttl : Nat}
    {u : String} (h : lookupA st.fallback u = none) :
    lookupA (cleanup_expired_sessions st now ttl).1.fallback u = none := by
  unfold cleanup_expired_sessions
  cases hscan : scanExpired now ttl st.fallback with
  | none => exact h
  | some ks =>
      simp only [lookupA_foldl_eraseA]
      by_cases hks : u ∈ ks <;> simp [hks, h]

/-- A fresh binding that is the key's only binding and is not stale
survives the sweep unchanged. -/
theorem lookupA_cleanup_of_unique {st : StorageState} {now : DT} {ttl : Nat}
    {u : String} {d : SessionData}
    (hl : lookupA st.fallback u = some d)
    (huniq : ∀ d', (u, d') ∈ st.fallback → d' = d)
    (hns : isStale now ttl d = false) :
    lookupA (cleanup_expired_sessions st now ttl).1.fallback u = some d := by
  unfold cleanup_expired_sessions
  cases hscan : scanExpired now ttl st.fallback with
  | none => exact hl
  | some ks =>
      simp only [lookupA_foldl_eraseA]
      have hks : u ∉ ks := by
        intro hu
        obtain ⟨d', hmem, hstale⟩ := scanExpired_mem hscan hu
        rw [huniq d' hmem] at hstale
        rw [hns] at hstale
        exact Bool.false_ne_true hstale
      simp [hks, hl]

/-! ### C1 — fallback durability under durable-tier failure -/

/-- C1: after `save_session(u, s)` performed while the durable (Redis)
tier is unreachable — no connection (`use_redis = false`), a raised or
unsuccessful `setex`, or a serialization failure — a `get_session(u)`
whose own durable access also fails or misses returns `s`: the write is
retained in the fallback tier and the read serves it, so the session is
never reported absent solely because the durable tier is down. -/
theorem fallback_durability_C1 (st : StorageState) (osave : SetexOutcome)
    (oget : CallOutcome) (u : String) (s : SessionData) (ttl : Nat)
    (hsave : st.use_redis = false ∨ osave = SetexOutcome.exn ∨
      osave = SetexOutcome.okFalse ∨ serialize_session s = none)
    (hget : st.use_redis = false ∨ oget = CallOutcome.exn ∨
      lookupA st.redis (redisKey u) = none) :
    get_session (save_session st osave u s ttl).1 oget u = some s := by
  cases hur : st.use_redis with
  | false =>
      cases oget <;>
        simp [save_session, get_session, hur, lookupA_insertA_self]
  | true =>
      have hfb : (save_session st osave u s ttl).1.fallback =
          insertA st.fallback u s := by
        unfold save_session
        cases hser : serialize_session s <;> cases osave <;> simp [hur, hser]
      have hur2 : (save_session st osave u s ttl).1.use_redis = true := by
        unfold save_session
        cases hser : serialize_session s <;> cases osave <;> simp [hur, hser]
      have hrd : (save_session st osave u s ttl).1.redis = st.redis := by
        unfold save_session
        rcases hsave with h | h | h | h
        · rw [hur] at h; exact absurd h (by simp)
        · subst h; cases hser : serialize_session s <;> simp [hur, hser]
        · subst h; cases hser : serialize_session s <;> simp [hur, hser]
        · cases osave <;> simp [hur, h]
      rcases hget with h | h | h
      · rw [hur] at h; exact absurd h (by simp)
      · subst h
        simp [get_session, hur2, hfb, lookupA_insertA_self]
      · cases oget <;>
          simp [get_session, hur2, hfb, hrd, h, lookupA_insertA_self]

/-- C1 witness: a concrete failed-durable-write save followed by a read. -/
theorem fallback_durability_C1_witness :
    get_session (save_session rState SetexOutcome.exn "u1" sampleData 86400).1
      CallOutcome.exn "u1" = some sampleData :=
  fallback_durability_C1 rState SetexOutcome.exn CallOutcome.exn "u1"
    sampleData 86400 (Or.inr (Or.inl rfl)) (Or.inr (Or.inl rfl))

/-! ### C2 — what `delete_session`'s boolean reports -/

/-- C2 counterexample: with both tiers empty (no record for `"u1"` exists
in either tier), `delete_session` still returns `true`, so its result does
not report whether any record existed prior to deletion, and a second
delete after a first does not report "not found". -/
theorem delete_reports_existence_C2_counterexample :
    lookupA emptyState.fallback "u1" = none ∧
    lookupA emptyState.redis (redisKey "u1") = none ∧
    (delete_session emptyState CallOutcome.ok "u1").2 = true :=
  ⟨rfl, rfl, rfl⟩

/-- C2 amended: `delete_session(u)` returns `true` on every path on which
no exception is raised — regardless of whether any record existed — and
`false` exactly when the durable-tier delete raises; after a successful
delete, `get_session(u)` yields absent, and a second `delete_session(u)`
again returns `true` rather than a "not found" report. -/
theorem delete_then_get_absent_C2 (st : StorageState) (u : String)
    (oget : CallOutcome) :
    (delete_session st CallOutcome.ok u).2 = true ∧
    get_session (delete_session st CallOutcome.ok u).1 oget u = none ∧
    (delete_session (delete_session st CallOutcome.ok u).1 CallOutcome.ok u).2 =
      true ∧
    (st.use_redis = true → (delete_session st CallOutcome.exn u).2 = false) := by
  refine ⟨?_, ?_, ?_, ?_⟩
  · unfold delete_session
    cases hur : st.use_redis <;> simp [hur]
  · unfold delete_session
    cases hur : st.use_redis <;> cases oget <;>
      simp [get_session, hur, lookupA_eraseA_self]
  · unfold delete_session
    cases hur : st.use_redis <;> simp [hur]
  · intro hur
    unfold delete_session
    simp [hur]

/-- C2 amended witness. -/
theorem delete_then_get_absent_C2_witness :
    (delete_session infoState CallOutcome.ok "u1").2 = true ∧
    get_session (delete_session infoState CallOutcome.ok "u1").1
      CallOutcome.ok "u1" = none ∧
    (delete_session (delete_session infoState CallOutcome.ok "u1").1
      CallOutcome.ok "u1").2 = true ∧
    (infoState.use_redis = true →
      (delete_session infoState CallOutcome.exn "u1").2 = false) :=
  delete_then_get_absent_C2 infoState "u1" CallOutcome.ok

/-! ### C3 — what `save_session`'s boolean reports -/

/-- C3 counterexample: with Redis connected and `setex` returning a falsy
reply without raising, `save_session` returns `false` even though the
fallback copy was stored — a durable-write failure surfaced to the caller
as an unsuccessful save, contradicting the claim. -/
theorem save_false_C3_counterexample :
    (save_session rState SetexOutcome.okFalse "u1" sampleData 86400).2 = false ∧
    lookupA (save_session rState SetexOutcome.okFalse "u1" sampleData 86400).1.fallback
      "u1" = some sampleData := by
  constructor
  · rfl
  · rfl

/-- C3 amended: `save_session(u, s)` always stores the fallback copy, and
reports success whenever Redis is not in use, the durable write raises, or
serialization raises; the single exception is a falsy `setex` reply
without an exception, which the code reports as `false` despite the
fallback copy existing. -/
theorem save_reports_success_C3 (st : StorageState) (o : SetexOutcome)
    (u : String) (s : SessionData) (ttl : Nat)
    (h : st.use_redis = false ∨ o = SetexOutcome.exn ∨ o = SetexOutcome.okTrue ∨
      serialize_session s = none) :
    lookupA (save_session st o u s ttl).1.fallback u = some s ∧
    (save_session st o u s ttl).2 = true := by
  constructor
  · unfold save_session
    cases hur : st.use_redis <;> cases hser : serialize_session s <;>
      cases o <;> simp [hur, hser, lookupA_insertA_self]
  · unfold save_session
    rcases h with h | h | h | h
    · simp [h]
    · subst h; cases hur : st.use_redis <;>
        cases hser : serialize_session s <;> simp [hur, hser]
    · subst h; cases hur : st.use_redis <;>
        cases hser : serialize_session s <;> simp [hur, hser]
    · cases hur : st.use_redis <;> cases o <;> simp [hur, h]

/-- C3 amended witness: a raised durable write still reports success. -/
theorem save_reports_success_C3_witness :
    lookupA (save_session rState SetexOutcome.exn "u1" sampleData 86400).1.fallback
      "u1" = some sampleData ∧
    (save_session rState SetexOutcome.exn "u1" sampleData 86400).2 = true :=
  save_reports_success_C3 rState SetexOutcome.exn "u1" sampleData 86400
    (Or.inr (Or.inl rfl))

/-! ### C8 — the context window presented to the model adapter -/

/-- C8: the window `process_message` presents to the model adapter
(`presented_history`, i.e. `get_conversation_history()` of the session
after the user message is appended) is exactly the most recent 10 messages
in insertion order — a suffix of length 10 — when the session holds more
than 10 messages, and all of its messages otherwise. -/
theorem context_window_C8 (s : ChatSession) (m : String) (now : DT) :
    (10 < ((s.add_message "user" m now).messages).length →
      ((s.add_message "user" m now).messages).take
          (((s.add_message "user" m now).messages).length - 10) ++
        presented_history s m now = (s.add_message "user" m now).messages ∧
      (presented_history s m now).length = 10) ∧
    (((s.add_message "user" m now).messages).length ≤ 10 →
      presented_history s m now = (s.add_message "user" m now).messages) := by
  constructor
  · intro h
    unfold presented_history ChatSession.get_conversation_history
    rw [if_pos h]
    exact ⟨List.take_append_drop _ _, by rw [List.length_drop]; omega⟩
  · intro h
    unfold presented_history ChatSession.get_conversation_history
    rw [if_neg (by omega)]

/-- C8 witness: the spec scenario — 15 prior messages plus one new user
message present exactly the most recent 10. -/
theorem context_window_C8_witness :
    ((sess15.add_message "user" "m16" t0).messages).take
        (((sess15.add_message "user" "m16" t0).messages).length - 10) ++
      presented_history sess15 "m16" t0 =
        (sess15.add_message "user" "m16" t0).messages ∧
    (presented_history sess15 "m16" t0).length = 10 :=
  (context_window_C8 sess15 "m16" t0).1 (by decide)

/-! ### C9 — how `is_active` is computed -/

/-- C9 counterexample: with the TTL configured to 2 seconds and a session
last active 10 seconds ago, the claim's predicate
`now - last_activity < session_ttl` is false, yet `get_session_info`
reports `is_active = true`: the code compares against the literal
`timedelta(seconds=86400)`, not the configured `settings.session_ttl`. -/
theorem is_active_ttl_C9_counterexample :
    (get_session_info infoState CallOutcome.ok "u1" t0plus10s).map
        SessionInfo.is_active = some true ∧
    ¬ (dtSub t0plus10s t0 < (2 : Int) * 1000000) := by
  constructor
  · decide
  · decide

/-- C9 amended: for every stored session with datetime timestamps, the
`is_active` flag of `get_session_info` equals
`now - last_activity < 86400 seconds` evaluated at query time — against
the hard-coded 24-hour constant, independent of the configured TTL. -/
theorem is_active_hardcoded_C9 (st : StorageState) (o : CallOutcome)
    (u : String) (now : DT) (d : SessionData) (c l : DT)
    (hget : get_session st o u = some d)
    (hca : d.created_at = some c)
    (hla : d.last_activity = some (TimeVal.dt l)) :
    (get_session_info st o u now).map SessionInfo.is_active =
      some (decide (dtSub now l < (86400 : Int) * 1000000)) := by
  unfold get_session_info
  rw [hget]
  simp only [hca, hla, Option.map_some']

/-- C9 amended witness. -/
theorem is_active_hardcoded_C9_witness :
    (get_session_info infoState CallOutcome.ok "u1" t0plus10s).map
        SessionInfo.is_active =
      some (decide (dtSub t0plus10s t0 < (86400 : Int) * 1000000)) :=
  is_active_hardcoded_C9 infoState CallOutcome.ok "u1" t0plus10s sampleData
    t0 t0 rfl rfl rfl

/-! ### C10 — entries without `last_activity` are never swept -/

/-- C10: a fallback entry whose stored record has no `last_activity` field
is never removed by `cleanup_expired_sessions` and never counted as
expired, for every TTL and every current time: the sweep skips it (the
`if 'last_activity' in session_data` guard), so it can only leave the
fallback tier via an explicit delete. -/
theorem no_last_activity_never_swept_C10 (st : StorageState) (now : DT)
    (ttl : Nat) (u : String) (d : SessionData)
    (hnd : (st.fallback.map Prod.fst).Nodup)
    (hl : lookupA st.fallback u = some d)
    (hla : d.last_activity = none) :
    lookupA (cleanup_expired_sessions st now ttl).1.fallback u = some d ∧
    ∀ ks, scanExpired now ttl st.fallback = some ks → u ∉ ks := by
  have hns : isStale now ttl d = false := by simp [isStale, hla]
  have huniq : ∀ d', (u, d') ∈ st.fallback → d' = d :=
    fun d' hm => eq_of_mem_of_lookupA hnd hl hm
  refine ⟨lookupA_cleanup_of_unique hl huniq hns, ?_⟩
  intro ks hscan hu
  obtain ⟨d', hmem, hstale⟩ := scanExpired_mem hscan hu
  rw [huniq d' hmem, hns] at hstale
  exact Bool.false_ne_true hstale

/-- C10 witness: the no-`last_activity` entry survives a sweep that does
remove a stale sibling. -/
theorem no_last_activity_never_swept_C10_witness :
    lookupA (cleanup_expired_sessions mixedState t0plus2d 86400).1.fallback
      "u4" = some noLAData ∧
    ∀ ks, scanExpired t0plus2d 86400 mixedState.fallback = some ks →
      "u4" ∉ ks :=
  no_last_activity_never_swept_C10 mixedState t0plus2d 86400 "u4" noLAData
    (by decide) (by decide) rfl

/-! ### C6 — the sweep removes exactly the stale fallback entries -/

/-- C6: for any fallback-tier contents (unique keys, every present
`last_activity` processable), `cleanup_expired_sessions` touches only the
fallback tier, removes exactly the entries whose `last_activity` precedes
`now - ttl` (i.e. `now - last_activity` strictly exceeds the configured
TTL, the `>` comparison in `isStale`), leaves every other entry unchanged,
and returns exactly the number of entries removed. -/
theorem sweep_exact_C6 (st : StorageState) (now : DT) (ttl : Nat)
    (hnd : (st.fallback.map Prod.fst).Nodup)
    (hc : ∀ p ∈ st.fallback, coercibleLA p.2 = true) :
    (cleanup_expired_sessions st now ttl).1.use_redis = st.use_redis ∧
    (cleanup_expired_sessions st now ttl).1.redis = st.redis ∧
    (∀ u d, lookupA st.fallback u = some d →
      lookupA (cleanup_expired_sessions st now ttl).1.fallback u =
        if isStale now ttl d = true then none else some d) ∧
    (∀ u, lookupA st.fallback u = none →
      lookupA (cleanup_expired_sessions st now ttl).1.fallback u = none) ∧
    (cleanup_expired_sessions st now ttl).2 =
      (st.fallback.filter (fun p => isStale now ttl p.2)).length := by
  have hscan := @scanExpired_eq_filter now ttl st.fallback hc
  refine ⟨(cleanup_preserves_redis st now ttl).1,
    (cleanup_preserves_redis st now ttl).2, ?_, ?_, ?_⟩
  · intro u d hl
    unfold cleanup_expired_sessions
    rw [hscan]
    simp only [lookupA_foldl_eraseA]
    by_cases hst : isStale now ttl d = true
    · have hks : u ∈ (st.fallback.filter
          (fun p => isStale now ttl p.2)).map Prod.fst :=
        List.mem_map_of_mem Prod.fst
          (List.mem_filter.mpr ⟨mem_of_lookupA hl, hst⟩)
      simp [hks, hst]
    · have hks : u ∉ (st.fallback.filter
          (fun p => isStale now ttl p.2)).map Prod.fst := by
        intro hu
        obtain ⟨p, hp, hpu⟩ := List.mem_map.mp hu
        obtain ⟨hpmem, hpst⟩ := List.mem_filter.mp hp
        have hud : (u, p.2) ∈ st.fallback := by
          rw [← hpu]
          simpa using hpmem
        rw [eq_of_mem_of_lookupA hnd hl hud] at hpst
        exact hst hpst
      simp [hks, hst, hl]
  · intro u hl
    unfold cleanup_expired_sessions
    rw [hscan]
    simp only [lookupA_foldl_eraseA]
    by_cases hks : u ∈ (st.fallback.filter
        (fun p => isStale now ttl p.2)).map Prod.fst <;> simp [hks, hl]
  · unfold cleanup_expired_sessions
    rw [hscan]
    simp

/-- C6 witness: a mixed sweep — one stale entry removed, one fresh entry
kept, count 1 (the `filter` length). -/
theorem sweep_exact_C6_witness :
    lookupA (cleanup_expired_sessions mixedState t0plus2d 86400).1.fallback
        "u2" =
      (if isStale t0plus2d 86400 staleData = true then none
        else some staleData) ∧
    lookupA (cleanup_expired_sessions mixedState t0plus2d 86400).1.fallback
        "u3" =
      (if isStale t0plus2d 86400 freshData = true then none
        else some freshData) ∧
    (cleanup_expired_sessions mixedState t0plus2d 86400).2 =
      (mixedState.fallback.filter
        (fun p => isStale t0plus2d 86400 p.2)).length := by
  have h := sweep_exact_C6 mixedState t0plus2d 86400 (by decide) (by decide)
  exact ⟨h.2.2.1 "u2" staleData rfl, h.2.2.1 "u3" freshData rfl, h.2.2.2.2⟩

/-! ### C7 — round-trip fidelity with the durable tier reachable -/

/-- C7: with the durable tier reachable (`use_redis`, successful `setex`,
successful read) and datetime timestamps on the record,
`save_session(u, s)` followed immediately by `get_session(u)` returns a
record equal to `s`: the JSON serialization, including `created_at` and
`last_activity` through ISO-format encoding and decoding, round-trips to
an equal record. -/
theorem roundtrip_put_get_C7 (st : StorageState) (u : String)
    (s : SessionData) (ttl : Nat) (c l : DT)
    (hur : st.use_redis = true)
    (hca : s.created_at = some c) (hcv : c.Valid)
    (hla : s.last_activity = some (TimeVal.dt l)) (hlv : l.Valid) :
    get_session (save_session st SetexOutcome.okTrue u s ttl).1
      CallOutcome.ok u = some s := by
  obtain ⟨j, hser, hdes⟩ := serialize_deserialize_session s l
    (fun c' hc' => by
      rw [hca] at hc'
      cases hc'
      exact hcv) hla hlv
  have hsave : (save_session st SetexOutcome.okTrue u s ttl).1 =
      { st with fallback := insertA st.fallback u s,
                redis := insertA st.redis (redisKey u) j } := by
    unfold save_session
    simp [hur, hser]
  rw [hsave]
  simp [get_session, hur, lookupA_insertA_self, hdes]

/-- C7 witness: a concrete put/get round-trip through Redis. -/
theorem roundtrip_put_get_C7_witness :
    get_session (save_session rState SetexOutcome.okTrue "u1" sampleData
      86400).1 CallOutcome.ok "u1" = some sampleData :=
  roundtrip_put_get_C7 rState "u1" sampleData 86400 t0 t0 rfl rfl
    (by decide) rfl (by decide)

/-! ### Helper lemmas for the chat-service claims -/

theorem save_session_fallback (st : StorageState) (o : SetexOutcome)
    (u : String) (d : SessionData) (ttl : Nat) :
    (save_session st o u d ttl).1.fallback = insertA st.fallback u d := by
  unfold save_session
  cases hur : st.use_redis <;> cases hser : serialize_session d <;>
    cases o <;> simp [hur, hser]

theorem save_session_use_redis (st : StorageState) (o : SetexOutcome)
    (u : String) (d : SessionData) (ttl : Nat) :
    (save_session st o u d ttl).1.use_redis = st.use_redis := by
  unfold save_session
  cases hur : st.use_redis <;> cases hser : serialize_session d <;>
    cases o <;> simp [hur, hser]

/-- A user absent from both tiers is absent for every read outcome. -/
theorem get_session_none (st : StorageState) (o : CallOutcome) (u : String)
    (hfb : lookupA st.fallback u = none)
    (hrd : lookupA st.redis (redisKey u) = none) :
    get_session st o u = none := by
  unfold get_session
  cases hur : st.use_redis with
  | false => simp [hfb]
  | true =>
      cases o with
      | ok => simp [hrd, hfb]
      | exn => simp [hfb]

/-- After saving a well-formed record for a key Redis previously missed,
a sweep-then-read returns that record whatever the save and read outcomes
were (the fallback copy or the durable copy serves it, and a record whose
last activity is not stale survives the sweep). -/
theorem get_session_cleanup_save (st : StorageState) (osave : SetexOutcome)
    (o2 : CallOutcome) (u : String) (d : SessionData) (ttl : Nat) (now : DT)
    (c l : DT)
    (hrd : lookupA st.redis (redisKey u) = none)
    (hca : d.created_at = some c) (hcv : c.Valid)
    (hla : d.last_activity = some (TimeVal.dt l)) (hlv : l.Valid)
    (hns : isStale now ttl d = false) :
    get_session
      (cleanup_expired_sessions (save_session st osave u d ttl).1 now ttl).1
      o2 u = some d := by
  have hAfb : lookupA (save_session st osave u d ttl).1.fallback u = some d := by
    rw [save_session_fallback]
    exact lookupA_insertA_self _ _ _
  have hAuniq : ∀ d', (u, d') ∈ (save_session st osave u d ttl).1.fallback →
      d' = d := by
    rw [save_session_fallback]
    intro d' hm
    rcases List.mem_cons.mp hm with heq | hmem
    · cases heq; rfl
    · exact absurd hmem (not_mem_eraseA _ _ _)
  have h3fb := lookupA_cleanup_of_unique hAfb hAuniq hns
  have h3rd := (cleanup_preserves_redis (save_session st osave u d ttl).1 now ttl).2
  have h3ur := (cleanup_preserves_redis (save_session st osave u d ttl).1 now ttl).1
  rw [save_session_use_redis] at h3ur
  unfold get_session
  cases hur : st.use_redis with
  | false =>
      rw [h3ur, hur]
      simp [h3fb]
  | true =>
      rw [h3ur, hur]
      cases o2 with
      | exn => simp [h3fb]
      | ok =>
          obtain ⟨j, hser, hdes⟩ := serialize_deserialize_session d l
            (fun c' hc' => by
              rw [hca] at hc'
              cases hc'
              exact hcv) hla hlv
          cases osave with
          | okTrue =>
              have hred : (save_session st SetexOutcome.okTrue u d ttl).1.redis =
                  insertA st.redis (redisKey u) j := by
                unfold save_session
                simp [hur, hser]
              rw [h3rd, hred]
              simp [lookupA_insertA_self, hdes]
          | okFalse =>
              have hred : (save_session st SetexOutcome.okFalse u d ttl).1.redis =
                  st.redis := by
                unfold save_session
                simp [hur, hser]
              rw [h3rd, hred]
              simp [hrd, h3fb]
          | exn =>
              have hred : (save_session st SetexOutcome.exn u d ttl).1.redis =
                  st.redis := by
                unfold save_session
                simp [hur, hser]
              rw [h3rd, hred]
              simp [hrd, h3fb]

/-! ### C4 — model-adapter failure handling in `process_message` -/

/-- C4 counterexample: for the fresh user `"B"` whose adapter call hits a
rate limit, `process_message` returns the fixed fallback apology — but the
persisted session for `"B"` holds only the system message: the appended
user message `"hi"` lives only in the discarded in-memory copy, because
the session is not re-persisted on the failure path.  The claim's
assertion that the persisted session contains the appended user message is
therefore false. -/
theorem process_failure_C4_counterexample :
    (process_message emptyState orc0 APIOutcome.rateLimitError "B" "hi" t0
        86400).2 = fallback_response ∧
    (lookupA (process_message emptyState orc0 APIOutcome.rateLimitError "B"
        "hi" t0 86400).1.fallback "B").map SessionData.messages =
      some [Msg.mk "system" system_prompt] ∧
    Msg.mk "user" "hi" ∉ [Msg.mk "system" system_prompt] := by
  refine ⟨rfl, rfl, ?_⟩
  decide

/-- C4 amended: when the model adapter fails (any caught failure class,
no-content reply, or empty-string reply), `process_message` returns the
fixed fallback apology and performs no further persistence: the resulting
storage state is exactly the one `get_or_create_session` left, so the
persisted session contains no new assistant message — and no new user
message either. -/
theorem process_failure_no_persist_C4 (st : StorageState) (orc : Oracle)
    (api : APIOutcome) (u m : String) (now : DT) (ttl : Nat)
    (st1 : StorageState) (sess : ChatSession)
    (hgoc : get_or_create_session st orc u now ttl = some (st1, sess))
    (hfail : generate_response api (presented_history sess m now) = none ∨
      generate_response api (presented_history sess m now) = some "") :
    process_message st orc api u m now ttl = (st1, fallback_response) := by
  unfold process_message
  rw [hgoc]
  rcases hfail with h | h <;> simp [h]

set_option maxRecDepth 4096 in
/-- C4 amended witness: the spec's `process_message("B", "hi")` scenario. -/
theorem process_failure_no_persist_C4_witness :
    process_message emptyState orc0 APIOutcome.rateLimitError "B" "hi" t0
      86400 = (stB, fallback_response) :=
  process_failure_no_persist_C4 emptyState orc0 APIOutcome.rateLimitError
    "B" "hi" t0 86400 stB (newUserSession "B" t0) (by decide) (Or.inl rfl)

/-! ### C5 — idempotent session creation -/

/-- C5: for a user absent from both tiers, `get_or_create_session` returns
a session whose message list is exactly the one system message, and a
second `get_or_create_session` for the same user (any per-call outcomes)
returns that same session without adding a second system message. -/
theorem idempotent_creation_C5 (st : StorageState) (orc orc2 : Oracle)
    (u : String) (now : DT) (ttl : Nat)
    (hfb : lookupA st.fallback u = none)
    (hrd : lookupA st.redis (redisKey u) = none)
    (hv : now.Valid) :
    (get_or_create_session st orc u now ttl).map Prod.snd =
      some (newUserSession u now) ∧
    ∀ st2 sess2, get_or_create_session st orc u now ttl = some (st2, sess2) →
      (get_or_create_session st2 orc2 u now ttl).map Prod.snd =
        some (newUserSession u now) := by
  have hget1 : get_session (cleanup_expired_sessions st now ttl).1 orc.oget u =
      none := by
    apply get_session_none
    · exact lookupA_cleanup_none hfb
    · rw [(cleanup_preserves_redis st now ttl).2]
      exact hrd
  have hgoc_eq : get_or_create_session st orc u now ttl =
      some ((save_session (cleanup_expired_sessions st now ttl).1 orc.osave u
        (session_to_data (newUserSession u now)) ttl).1,
        newUserSession u now) := by
    unfold get_or_create_session
    simp only [hget1]
    rfl
  constructor
  · rw [hgoc_eq]
    rfl
  · intro st2 sess2 hgoc2
    rw [hgoc_eq] at hgoc2
    have hpair := Option.some.inj hgoc2
    have hst2 : st2 = (save_session (cleanup_expired_sessions st now ttl).1
        orc.osave u (session_to_data (newUserSession u now)) ttl).1 :=
      (congrArg Prod.fst hpair).symm
    subst hst2
    have hns : isStale now ttl (session_to_data (newUserSession u now)) =
        false := by
      have h0 : dtSub now now = 0 := Int.sub_self _
      simp [isStale, session_to_data, newUserSession, coerceLA, h0]
    have hrd1 : lookupA (cleanup_expired_sessions st now ttl).1.redis
        (redisKey u) = none := by
      rw [(cleanup_preserves_redis st now ttl).2]
      exact hrd
    have hget2 := get_session_cleanup_save
      (cleanup_expired_sessions st now ttl).1 orc.osave orc2.oget u
      (session_to_data (newUserSession u now)) ttl now now now hrd1 rfl hv rfl hv
      hns
    unfold get_or_create_session
    simp only [hget2]
    rfl

/-- C5 witness: fresh user `"A"` on the empty fallback-only store. -/
theorem idempotent_creation_C5_witness :
    (get_or_create_session emptyState orc0 "A" t0 86400).map Prod.snd =
      some (newUserSession "A" t0) ∧
    ∀ st2 sess2, get_or_create_session emptyState orc0 "A" t0 86400 =
        some (st2, sess2) →
      (get_or_create_session st2 orc0 "A" t0 86400).map Prod.snd =
        some (newUserSession "A" t0) :=
  idempotent_creation_C5 emptyState orc0 orc0 "A" t0 86400 rfl rfl (by decide)
